import Mathlib

/-!
Shallow embedding of the RTPS peer runtime of the dust-dds repository, together
with proofs checking the natural-language specification against the code.

The embedding mirrors the Rust sources crate by crate:

* `UdpPsm`   — `rtps_udp_psm/src/submessage_elements.rs` and
  `rtps_udp_psm/src/mapping_rtps_messages/submessages/ack_nack.rs`
  (SequenceNumberSet codec, AckNack serializer).
* `Rtps`     — `dds/src/implementation/rtps/reader_proxy.rs`
  (heartbeat machine, reader proxy operations).
* `OldImpl`  — `dds_rtps_implementation/src/rtps_impl/rtps_stateful_writer_impl.rs`
  and `dds_rtps_implementation/src/utils/message_receiver.rs`.
* `Dcps`     — `dds/src/implementation/dds_impl/domain_participant_impl.rs`
  (`delete_publisher`).

Rust machine integers are modelled as `Int`/`Nat`; wherever the source fixes a
wrap-around semantics (`wrapping_add`, `as u32` casts) the reduction modulo
`2 ^ w` is written out explicitly.  Code whose body is `todo!()` in the source
is modelled as `Option.none` (the call aborts).
-/

set_option maxHeartbeats 1000000
set_option linter.unusedVariables false

namespace DustDds

/-! Machine-integer helpers: two's-complement i32 normalisation and the
truncating Rust casts `as u32` / `as i32`. -/

/-- Two's-complement normalisation to the i32 range, the value semantics of
Rust's `i32::wrapping_add` and of the `as i32` cast. -/
def wrapI32 (n : Int) : Int := (n + 2 ^ 31) % 2 ^ 32 - 2 ^ 31

/-- The truncating Rust cast `as u32` applied to a signed integer. -/
def toU32 (n : Int) : Nat := (n % 2 ^ 32).toNat

namespace UdpPsm

/-- Wire representation of a sequence number,
`rtps_udp_psm/src/submessage_elements.rs` `SequenceNumberUdp {high: i32, low: u32}`.
`high` is an i32 value, `low` a u32 value. -/
structure SequenceNumberUdp where
  high : Int
  low : Nat
  deriving DecidableEq, Repr

/-- Embeds `impl From<&i64> for SequenceNumberUdp`:
`high = (value >> 32) as i32`, `low = value as u32`.  The arithmetic shift of
an i64 by 32 is floor division by `2 ^ 32`. -/
def SequenceNumberUdp.ofI64 (value : Int) : SequenceNumberUdp :=
  { high := wrapI32 (value / 2 ^ 32), low := toU32 value }

/-- Embeds `impl From<&SequenceNumberUdp> for i64`:
`((high as i64) << 32) + low as i64`. -/
def SequenceNumberUdp.toI64 (s : SequenceNumberUdp) : Int :=
  s.high * 2 ^ 32 + (s.low : Int)

/-- Wire representation of a sequence-number set,
`SequenceNumberSetUdp {base, num_bits: u32, bitmap: [i32; 8]}`.  The eight
bitmap words are kept as their unsigned 32-bit bit patterns. -/
structure SequenceNumberSetUdp where
  base : SequenceNumberUdp
  num_bits : Nat
  bitmap : List Nat
  deriving DecidableEq, Repr

/-- Embeds `SequenceNumberSetUdp::len`:
`12 + 4 * ((num_bits + 31) / 32)`.  (For the `num_bits ≤ 256` domain of the
claims the u32/u16 arithmetic of the source cannot overflow, so plain `Nat`
arithmetic is exact.) -/
def SequenceNumberSetUdp.len (s : SequenceNumberSetUdp) : Nat :=
  let number_of_bitmap_elements := (s.num_bits + 31) / 32
  12 + 4 * number_of_bitmap_elements

/-- Setting bit `bit` (counted from the least significant end) in word
`bitmap_num` of the bitmap: `bitmap[bitmap_num] |= 1 << bit`. -/
def bitmapSetBit (bitmap : List Nat) (bitmap_num : Nat) (bit : Nat) : List Nat :=
  bitmap.set bitmap_num (bitmap.getD bitmap_num 0 ||| 2 ^ bit)

/-- One step of the constructor loop of
`SequenceNumberSetSubmessageElementType::new` for `SequenceNumberSetUdp`:
given the accumulated (bitmap, num_bits) pair and one sequence number, set bit
`31 - delta_n % 32` of word `delta_n / 32` where
`delta_n = (sequence_number - base) as u32`, and raise `num_bits` to
`delta_n + 1` when it grows. -/
def snSetStep (base : Int) (acc : List Nat × Nat) (sequence_number : Int) :
    List Nat × Nat :=
  let delta_n := toU32 (sequence_number - base)
  let bitmap_num := delta_n / 32
  let bitmap := bitmapSetBit acc.1 bitmap_num (31 - delta_n % 32)
  let num_bits := if delta_n + 1 > acc.2 then delta_n + 1 else acc.2
  (bitmap, num_bits)

/-- Embeds `SequenceNumberSetSubmessageElementType::new` for
`SequenceNumberSetUdp`: fold `snSetStep` over the input sequence numbers,
starting from the all-zero eight-word bitmap and `num_bits = 0`. -/
def SequenceNumberSetUdp.new (base : Int) (set : List Int) : SequenceNumberSetUdp :=
  let r := set.foldl (snSetStep base) (List.replicate 8 0, 0)
  { base := SequenceNumberUdp.ofI64 base, num_bits := r.2, bitmap := r.1 }

/-- The membership test of the `set()` getter: bit `31 - d % 32` of bitmap
word `d / 32`, i.e. `bitmap[delta_n / 32] & (1 << (31 - delta_n % 32)) != 0`
in the source. -/
def bitGet (ws : List Nat) (d : Nat) : Bool :=
  (ws.getD (d / 32) 0).testBit (31 - d % 32)

/-- Embeds the `set()` getter of `SequenceNumberSetSubmessageElementType` for
`SequenceNumberSetUdp`: every `delta_n < num_bits` whose bitmap bit
`31 - delta_n % 32` of word `delta_n / 32` is set contributes
`base + delta_n`. -/
def SequenceNumberSetUdp.setList (s : SequenceNumberSetUdp) : List Int :=
  ((List.range s.num_bits).filter (fun delta_n => bitGet s.bitmap delta_n)).map
    (fun (delta_n : Nat) => s.base.toI64 + (delta_n : Int))

/-- Little-endian byte encoding of a u32 value. -/
def u32le (n : Nat) : List Nat :=
  [n % 256, n / 256 % 256, n / 256 ^ 2 % 256, n / 256 ^ 3 % 256]

/-- Little-endian byte encoding of an i32 value (its two's-complement
pattern). -/
def i32le (n : Int) : List Nat := u32le (toU32 n)

/-- Little-endian byte encoding of a list of 32-bit words. -/
def wordsToBytes : List Nat → List Nat
  | [] => []
  | w :: ws => u32le w ++ wordsToBytes ws

/-- Embeds `impl serde::Serialize for SequenceNumberSetUdp` (little-endian
serializer): `bitmapBase` (high then low), `numBits`, then bitmap words
`bitmap[0] .. bitmap[M-1]` with `M = (num_bits + 31) / 32`. -/
def SequenceNumberSetUdp.serializeBytes (s : SequenceNumberSetUdp) : List Nat :=
  let number_of_bitmap_elements := (s.num_bits + 31) / 32
  i32le s.base.high ++ u32le s.base.low ++ u32le s.num_bits ++
    wordsToBytes (s.bitmap.take number_of_bitmap_elements)

/-- The `AckNackSubmessage` struct of the `rtps_pim` crate, as listed field by
field in the comment inside
`rtps_udp_psm/src/mapping_rtps_messages/submessages/ack_nack.rs`
(endianness flag, final flag, reader id, writer id, reader sequence-number
state, count).  Entity ids are the 3-byte key plus kind byte. -/
structure EntityIdPim where
  entity_key : List Nat
  entity_kind : Nat
  deriving DecidableEq, Repr

structure AckNackSubmessagePim where
  endianness_flag : Bool
  final_flag : Bool
  reader_id : EntityIdPim
  writer_id : EntityIdPim
  reader_sn_state_base : Int
  reader_sn_state_set : List Int
  count : Int
  deriving DecidableEq, Repr

/-- The byte order selected by the endianness flag. -/
inductive ByteOrder
  | littleEndian
  | bigEndian
  deriving DecidableEq, Repr

/-- Embeds `impl<S> Serialize for AckNackSubmessage<S>` from
`rtps_udp_psm/src/mapping_rtps_messages/submessages/ack_nack.rs`: the body of
`serialize` is `todo!()`, so every call aborts; `none` models the panic (no
byte sequence is ever produced). -/
def serializeAckNack (s : AckNackSubmessagePim) (byte_order : ByteOrder) :
    Option (List Nat) :=
  none

theorem wrapI32_eq_self {n : Int} (h1 : -(2 ^ 31) ≤ n) (h2 : n < 2 ^ 31) :
    wrapI32 n = n := by
  unfold wrapI32; omega

theorem toU32_eq_self {n : Int} (h1 : 0 ≤ n) (h2 : n < 2 ^ 32) :
    (toU32 n : Int) = n := by
  unfold toU32; omega

theorem SequenceNumberUdp.toI64_ofI64 {b : Int}
    (h1 : -(2 ^ 63) ≤ b) (h2 : b < 2 ^ 63) :
    (SequenceNumberUdp.ofI64 b).toI64 = b := by
  unfold SequenceNumberUdp.ofI64 SequenceNumberUdp.toI64 wrapI32 toU32
  simp only
  omega

end UdpPsm

namespace Rtps

/-! Embedding of `dds/src/implementation/rtps/reader_proxy.rs`. -/

/-- RTPS entity id: 3-byte key plus kind byte. -/
structure EntityId where
  entity_key : List Nat
  entity_kind : Nat
  deriving DecidableEq, Repr

/-- RTPS GUID: participant guid-prefix bytes plus an entity id. -/
structure Guid where
  guidPrefixBytes : List Nat
  entity_id : EntityId
  deriving DecidableEq, Repr

def Guid.entityId (g : Guid) : EntityId := g.entity_id

/-- RTPS locator (kind, port, 16 address bytes). -/
structure Locator where
  kind : Int
  port : Nat
  address : List Nat
  deriving DecidableEq, Repr

inductive ReliabilityKind
  | BestEffort
  | Reliable
  deriving DecidableEq, Repr

inductive DurabilityKind
  | Volatile
  | TransientLocal
  deriving DecidableEq, Repr

/-- The `Count` message type is an i32 (`CountUdp(i32)` in
`rtps_udp_psm/src/submessage_elements.rs`); `wrapping_add` is Rust's
`i32::wrapping_add`, i.e. addition followed by two's-complement
normalisation. -/
def Count.wrapping_add (c rhs : Int) : Int := wrapI32 (c + rhs)

/-- The Heartbeat submessage produced by the heartbeat machine
(`HeartbeatSubmessageWrite::new(final_flag, liveliness_flag, reader_id,
writer_id, first_sn, last_sn, count)`). -/
structure HeartbeatSubmessageWrite where
  final_flag : Bool
  liveliness_flag : Bool
  reader_id : EntityId
  writer_id : EntityId
  first_sn : Int
  last_sn : Int
  count : Int
  deriving DecidableEq, Repr

/-- Embeds `HeartbeatMachine` from `reader_proxy.rs`.  The `timer: StdTimer`
field is wall-clock state used only by `is_time_for_heartbeat` and is not
modelled; the count logic is independent of it. -/
structure HeartbeatMachine where
  count : Int
  reader_id : EntityId
  deriving DecidableEq, Repr

/-- Embeds `HeartbeatMachine::new`: the count starts at `Count::new(0)`. -/
def HeartbeatMachine.new (reader_id : EntityId) : HeartbeatMachine :=
  { count := 0, reader_id }

/-- Embeds `HeartbeatMachine::submessage`: `self.count =
self.count.wrapping_add(1)` and a Heartbeat submessage carrying the new count
is returned. -/
def HeartbeatMachine.submessage (m : HeartbeatMachine) (writer_id : EntityId)
    (first_sn last_sn : Int) : HeartbeatSubmessageWrite × HeartbeatMachine :=
  let count := Count.wrapping_add m.count 1
  ({ final_flag := false, liveliness_flag := false, reader_id := m.reader_id,
     writer_id, first_sn, last_sn, count },
   { m with count })

/-- The heartbeat machine of a reader proxy after `n` generated heartbeats. -/
def hbMachineAfter (reader_id writer_id : EntityId) (first_sn last_sn : Int) :
    Nat → HeartbeatMachine
  | 0 => HeartbeatMachine.new reader_id
  | n + 1 =>
    ((hbMachineAfter reader_id writer_id first_sn last_sn n).submessage
      writer_id first_sn last_sn).2

/-- The count carried by the n-th generated heartbeat (n ≥ 1); equal to the
machine count after n calls. -/
def hbCountAfter (reader_id writer_id : EntityId) (first_sn last_sn : Int)
    (n : Nat) : Int :=
  (hbMachineAfter reader_id writer_id first_sn last_sn n).count

/-- Embeds `HeartbeatFragMachine` from `reader_proxy.rs`. -/
structure HeartbeatFragMachine where
  count : Int
  reader_id : EntityId
  deriving DecidableEq, Repr

inductive ChangeKind
  | Alive
  | AliveFiltered
  | NotAliveDisposed
  | NotAliveUnregistered
  deriving DecidableEq, Repr

/-- A cache change held by the writer history cache; only the sequence number
is inspected by the reader-proxy operations. -/
structure RtpsCacheChange where
  kind : ChangeKind
  writer_guid : Guid
  instance_handle : Int
  sequence_number : Int
  data_value : List Nat
  deriving DecidableEq, Repr

/-- Modelled from the spec: the `RtpsWriter` of the dds crate is not under
src/; per §3 its history cache is an ordered collection of cache changes, and
`change_list()` returns them. -/
structure RtpsWriter where
  change_list : List RtpsCacheChange
  deriving DecidableEq, Repr

/-- Embeds `RtpsReaderProxy` from `reader_proxy.rs` (all fields of the
source struct; the guid-prefix-style field names of the source are kept in
camel case). -/
structure RtpsReaderProxy where
  remote_reader_guid : Guid
  remote_group_entity_id : EntityId
  unicast_locator_list : List Locator
  multicast_locator_list : List Locator
  highest_sent_seq_num : Int
  highest_acked_seq_num : Int
  requested_changes : List Int
  expects_inline_qos : Bool
  is_active : Bool
  last_received_acknack_count : Int
  last_received_nack_frag_count : Int
  heartbeat_machine : HeartbeatMachine
  heartbeat_frag_machine : HeartbeatFragMachine
  reliability : ReliabilityKind
  durability : DurabilityKind
  first_relevant_sample_seq_num : Int
  deriving DecidableEq, Repr

/-- Embeds `RtpsReaderProxy::new`: highest sent/acked sequence numbers start
at 0, the requested-change set is empty, both machines start with count 0. -/
def RtpsReaderProxy.new (remote_reader_guid : Guid)
    (remote_group_entity_id : EntityId)
    (unicast_locator_list multicast_locator_list : List Locator)
    (expects_inline_qos is_active : Bool) (reliability : ReliabilityKind)
    (durability : DurabilityKind) (first_relevant_sample_seq_num : Int) :
    RtpsReaderProxy :=
  { remote_reader_guid, remote_group_entity_id, unicast_locator_list,
    multicast_locator_list,
    highest_sent_seq_num := 0,
    highest_acked_seq_num := 0,
    requested_changes := [],
    expects_inline_qos, is_active,
    last_received_acknack_count := 0,
    last_received_nack_frag_count := 0,
    heartbeat_machine := HeartbeatMachine.new remote_reader_guid.entity_id,
    heartbeat_frag_machine :=
      { count := 0, reader_id := remote_reader_guid.entity_id },
    reliability, durability, first_relevant_sample_seq_num }

/-- `Iterator::min` over a list of sequence numbers
(`requested_changes.iter().min()` and the `min()` of `next_unsent_change`). -/
def listMin : List Int → Option Int
  | [] => none
  | x :: xs =>
    match listMin xs with
    | none => some x
    | some m => some (min x m)

/-- Embeds `WriterAssociatedReaderProxy::acked_changes_set`: raise
`highest_acked_seq_num` to `committed_seq_num` when it is larger. -/
def RtpsReaderProxy.acked_changes_set (p : RtpsReaderProxy)
    (committed_seq_num : Int) : RtpsReaderProxy :=
  if committed_seq_num > p.highest_acked_seq_num then
    { p with highest_acked_seq_num := committed_seq_num }
  else p

/-- Embeds `WriterAssociatedReaderProxy::next_requested_change`: take the
minimum of `requested_changes` and retain only the entries different from
it. -/
def RtpsReaderProxy.next_requested_change (p : RtpsReaderProxy) :
    Option Int × RtpsReaderProxy :=
  match listMin p.requested_changes with
  | none => (none, p)
  | some next_sn =>
    (some next_sn,
     { p with requested_changes :=
        p.requested_changes.filter (fun sn => sn != next_sn) })

/-- Embeds `WriterAssociatedReaderProxy::next_unsent_change`: the minimum
cache-change sequence number strictly above `highest_sent_seq_num`. -/
def next_unsent_change (w : RtpsWriter) (p : RtpsReaderProxy) : Option Int :=
  listMin
    ((w.change_list.map (fun cc => cc.sequence_number)).filter
      (fun cc_sn => decide (cc_sn > p.highest_sent_seq_num)))

/-- Embeds `WriterAssociatedReaderProxy::requested_changes_set`: push each
sequence number of the request set that is not already present. -/
def RtpsReaderProxy.requested_changes_set (p : RtpsReaderProxy)
    (req_seq_num_set : List Int) : RtpsReaderProxy :=
  req_seq_num_set.foldl
    (fun acc seq_num =>
      if acc.requested_changes.contains seq_num then acc
      else { acc with requested_changes := acc.requested_changes ++ [seq_num] })
    p

/-- Embeds `WriterAssociatedReaderProxy::set_highest_sent_seq_num`: raise
`highest_sent_seq_num` to `seq_num` when it is larger. -/
def RtpsReaderProxy.set_highest_sent_seq_num (p : RtpsReaderProxy)
    (seq_num : Int) : RtpsReaderProxy :=
  if seq_num > p.highest_sent_seq_num then
    { p with highest_sent_seq_num := seq_num }
  else p

/-- Embeds `WriterAssociatedReaderProxy::set_first_relevant_sample_seq_num`. -/
def RtpsReaderProxy.set_first_relevant_sample_seq_num (p : RtpsReaderProxy)
    (seq_num : Int) : RtpsReaderProxy :=
  { p with first_relevant_sample_seq_num := seq_num }

/-- Embeds `WriterAssociatedReaderProxy::set_last_received_acknack_count`. -/
def RtpsReaderProxy.set_last_received_acknack_count (p : RtpsReaderProxy)
    (count : Int) : RtpsReaderProxy :=
  { p with last_received_acknack_count := count }

/-- Embeds `WriterAssociatedReaderProxy::set_last_received_nack_frag_count`. -/
def RtpsReaderProxy.set_last_received_nack_frag_count (p : RtpsReaderProxy)
    (count : Int) : RtpsReaderProxy :=
  { p with last_received_nack_frag_count := count }

/-- The AckNack submessage as consumed by the stateful writer: a final flag,
entity ids, the reader sequence-number state (base and bitmap set) and a
count. -/
structure AckNackSubmessage where
  final_flag : Bool
  reader_id : EntityId
  writer_id : EntityId
  reader_sn_state_base : Int
  reader_sn_state_set : List Int
  count : Int
  deriving DecidableEq, Repr

/-- Modelled from the spec: the data writer's `on_acknack_submessage_received`
glue is not under src/.  Spec §4.2: "process AckNack: if `acknack.count ≤
last_received_acknack_count` discard (duplicate/stale).  Otherwise set
`highest_acked_seq_num = max(current, reader_sn_state.base − 1)` and union
`requested_changes` with the bitmap set."  Realised with the src operations
`acked_changes_set` and `requested_changes_set`, then recording the count. -/
def on_acknack_submessage_received (p : RtpsReaderProxy)
    (acknack : AckNackSubmessage) : RtpsReaderProxy :=
  if acknack.count > p.last_received_acknack_count then
    let p1 := p.acked_changes_set (acknack.reader_sn_state_base - 1)
    let p2 := p1.requested_changes_set acknack.reader_sn_state_set
    p2.set_last_received_acknack_count acknack.count
  else p

/-- Modelled from the spec: the writer send loop (DATA versus GAP dispatch) is
not under src/.  Spec §4.2: "send Data: for every cache change with `sn >
highest_sent_seq_num ∧ sn ≥ first_relevant_sample_seq_num`, emit DATA ...
Update `highest_sent_seq_num`"; changes below
`first_relevant_sample_seq_num` are covered by "send Gap".  The loop drains
`next_unsent_change` (src), emits GAP for irrelevant sequence numbers and
stops at the first DATA; `fuel` bounds the iteration count.  Returns the
sequence number selected for DATA (if any) and the updated proxy. -/
def send_loop_first_data (w : RtpsWriter) :
    RtpsReaderProxy → Nat → Option Int × RtpsReaderProxy
  | p, 0 => (none, p)
  | p, Nat.succ fuel =>
    match next_unsent_change w p with
    | none => (none, p)
    | some sn =>
      let p2 := p.set_highest_sent_seq_num sn
      if sn ≥ p.first_relevant_sample_seq_num then (some sn, p2)
      else send_loop_first_data w p2 fuel

/-- The mutating reader-proxy operations, for stating invariants over
arbitrary operation sequences. -/
inductive ProxyOp
  | ackedChangesSet (c : Int)
  | requestedChangesSet (l : List Int)
  | nextRequestedChange
  | setHighestSentSeqNum (s : Int)
  | setFirstRelevantSampleSeqNum (s : Int)
  | setLastReceivedAcknackCount (c : Int)
  | setLastReceivedNackFragCount (c : Int)
  | onAcknack (a : AckNackSubmessage)
  deriving Repr

def applyOp (p : RtpsReaderProxy) : ProxyOp → RtpsReaderProxy
  | ProxyOp.ackedChangesSet c => p.acked_changes_set c
  | ProxyOp.requestedChangesSet l => p.requested_changes_set l
  | ProxyOp.nextRequestedChange => p.next_requested_change.2
  | ProxyOp.setHighestSentSeqNum s => p.set_highest_sent_seq_num s
  | ProxyOp.setFirstRelevantSampleSeqNum s => p.set_first_relevant_sample_seq_num s
  | ProxyOp.setLastReceivedAcknackCount c => p.set_last_received_acknack_count c
  | ProxyOp.setLastReceivedNackFragCount c => p.set_last_received_nack_frag_count c
  | ProxyOp.onAcknack a => on_acknack_submessage_received p a

def applyOps (p : RtpsReaderProxy) (ops : List ProxyOp) : RtpsReaderProxy :=
  ops.foldl applyOp p

/-! Sample values used to exercise the reader-proxy operations on concrete
inputs. -/

def sampleEntityId : EntityId := { entity_key := [0, 0, 0], entity_kind := 7 }

def sampleGuid : Guid :=
  { guidPrefixBytes := List.replicate 12 1, entity_id := sampleEntityId }

def sampleProxy : RtpsReaderProxy :=
  RtpsReaderProxy.new sampleGuid sampleEntityId [] [] false true
    ReliabilityKind.Reliable DurabilityKind.Volatile 2

def sampleChange (sn : Int) : RtpsCacheChange :=
  { kind := ChangeKind.Alive, writer_guid := sampleGuid, instance_handle := 0,
    sequence_number := sn, data_value := [] }

def sampleWriter : RtpsWriter :=
  { change_list := [sampleChange 1, sampleChange 2, sampleChange 3] }

def sampleAckNack : AckNackSubmessage :=
  { final_flag := false, reader_id := sampleEntityId,
    writer_id := sampleEntityId, reader_sn_state_base := 4,
    reader_sn_state_set := [4, 6], count := 1 }

end Rtps

namespace OldImpl

/-! Embedding of the `dds_rtps_implementation` crate:
`rtps_impl/rtps_stateful_writer_impl.rs` and `utils/message_receiver.rs`. -/

/-- A 12-byte participant guid-prefix (`GuidPrefix(pub [u8; 12])`). -/
abbrev GuidPrefixBytes := List Nat

/-- A 2-byte vendor id. -/
abbrev VendorId := List Nat

structure ProtocolVersion where
  major : Nat
  minor : Nat
  deriving DecidableEq, Repr

structure EntityId where
  entity_key : List Nat
  entity_kind : Nat
  deriving DecidableEq, Repr

structure Guid where
  guidPrefixBytes : GuidPrefixBytes
  entity_id : EntityId
  deriving DecidableEq, Repr

structure Locator where
  kind : Int
  port : Nat
  address : List Nat
  deriving DecidableEq, Repr

def PROTOCOLVERSION : ProtocolVersion := { major := 2, minor := 4 }

def VENDOR_ID_UNKNOWN : VendorId := [0, 0]

def GUIDPREFIX_UNKNOWN : GuidPrefixBytes := List.replicate 12 0

def LOCATOR_PORT_INVALID : Nat := 0

def LOCATOR_ADDRESS_INVALID : List Nat := List.replicate 16 0

/-- Modelled from the spec: the `Time` message type of the `rtps_pim` crate is
not under src/; it is a sentinel-capable timestamp, modelled as an integer
with `TIME_INVALID` as the sentinel (its exact numeric value is immaterial to
the claims). -/
abbrev Time := Int

def TIME_INVALID : Time := -1

/-- An inline-qos parameter (parameter id plus value bytes). -/
structure Parameter where
  parameter_id : Nat
  value : List Nat
  deriving DecidableEq, Repr

/-- The Data submessage as read by the message receiver
(`DataSubmessageRead`): five flags, reader/writer entity ids, the writer
sequence number, inline qos and serialized payload. -/
structure DataSubmessageRead where
  endianness_flag : Bool
  inline_qos_flag : Bool
  data_flag : Bool
  key_flag : Bool
  non_standard_payload_flag : Bool
  reader_id : EntityId
  writer_id : EntityId
  writer_sn : Int
  inline_qos : List Parameter
  serialized_payload : List Nat
  deriving DecidableEq, Repr

/-- The InfoTimestamp submessage as read by the message receiver
(`InfoTimestampSubmessageRead`). -/
structure InfoTimestampSubmessageRead where
  endianness_flag : Bool
  invalidate_flag : Bool
  timestamp : Time
  deriving DecidableEq, Repr

/-- The submessage alphabet dispatched by `process_message`
(`RtpsSubmessageTypeRead`).  Only the `Data` and `InfoTimestamp` payloads are
carried: they are the only ones `process_message` ever inspects (every other
arm of the source match is `todo!()`); `InfoDestination` carries the
destination guid prefix held by `InfoDestinationSubmessageRead`. -/
inductive RtpsSubmessageTypeRead
  | AckNack
  | Data (d : DataSubmessageRead)
  | DataFrag
  | Gap
  | Heartbeat
  | HeartbeatFrag
  | InfoDestination (destGuidPrefix : GuidPrefixBytes)
  | InfoReply
  | InfoSource
  | InfoTimestamp (it : InfoTimestampSubmessageRead)
  | NackFrag
  | Pad
  deriving DecidableEq, Repr

structure RtpsMessageHeader where
  version : ProtocolVersion
  vendor_id : VendorId
  guidPrefixBytes : GuidPrefixBytes
  deriving DecidableEq, Repr

structure RtpsMessageRead where
  header : RtpsMessageHeader
  submessages : List RtpsSubmessageTypeRead
  deriving DecidableEq, Repr

/-- Embeds the `MessageReceiver` state of
`dds_rtps_implementation/src/utils/message_receiver.rs` (the source's
`source_guid_prefix` / `dest_guid_prefix` field names are kept in camel
case). -/
structure MessageReceiver where
  source_version : ProtocolVersion
  source_vendor_id : VendorId
  sourceGuidPrefix : GuidPrefixBytes
  destGuidPrefix : GuidPrefixBytes
  unicast_reply_locator_list : List Locator
  multicast_reply_locator_list : List Locator
  have_timestamp : Bool
  timestamp : Time
  deriving DecidableEq, Repr

/-- Embeds `MessageReceiver::new`. -/
def MessageReceiver.new : MessageReceiver :=
  { source_version := PROTOCOLVERSION,
    source_vendor_id := VENDOR_ID_UNKNOWN,
    sourceGuidPrefix := GUIDPREFIX_UNKNOWN,
    destGuidPrefix := GUIDPREFIX_UNKNOWN,
    unicast_reply_locator_list := [],
    multicast_reply_locator_list := [],
    have_timestamp := false,
    timestamp := TIME_INVALID }

/-- Embeds `MessageReceiver::process_info_timestamp_submessage`. -/
def process_info_timestamp_submessage (r : MessageReceiver)
    (info_timestamp : InfoTimestampSubmessageRead) : MessageReceiver :=
  if info_timestamp.invalidate_flag = false then
    { r with have_timestamp := true, timestamp := info_timestamp.timestamp }
  else
    { r with have_timestamp := false, timestamp := TIME_INVALID }

/-- A recorded `process_data_submessage` dispatch (the receiver hands the
source guid prefix and the Data submessage to every registered processor). -/
structure DataEvent where
  sourceGuidPrefix : GuidPrefixBytes
  data : DataSubmessageRead
  deriving DecidableEq, Repr

/-- The submessage walk of `MessageReceiver::process_message`.  Every arm of
the source `match` other than `Data` and `InfoTimestamp` is `todo!()`, i.e.
the receiver aborts there; `none` models the panic. -/
def process_message_go (r : MessageReceiver) (evs : List DataEvent) :
    List RtpsSubmessageTypeRead → Option (MessageReceiver × List DataEvent)
  | [] => some (r, evs)
  | submessage :: rest =>
    match submessage with
    | RtpsSubmessageTypeRead.AckNack => none
    | RtpsSubmessageTypeRead.Data d =>
      process_message_go r (evs ++ [{ sourceGuidPrefix := r.sourceGuidPrefix, data := d }]) rest
    | RtpsSubmessageTypeRead.DataFrag => none
    | RtpsSubmessageTypeRead.Gap => none
    | RtpsSubmessageTypeRead.Heartbeat => none
    | RtpsSubmessageTypeRead.HeartbeatFrag => none
    | RtpsSubmessageTypeRead.InfoDestination _ => none
    | RtpsSubmessageTypeRead.InfoReply => none
    | RtpsSubmessageTypeRead.InfoSource => none
    | RtpsSubmessageTypeRead.InfoTimestamp it =>
      process_message_go (process_info_timestamp_submessage r it) evs rest
    | RtpsSubmessageTypeRead.NackFrag => none
    | RtpsSubmessageTypeRead.Pad => none

/-- Embeds `MessageReceiver::process_message`: initialise the per-datagram
state from the participant guid prefix, the message header and the source
locator, then walk the submessages in order. -/
def process_message (r : MessageReceiver) (participantGuidPrefix : GuidPrefixBytes)
    (source_locator : Locator) (message : RtpsMessageRead) :
    Option (MessageReceiver × List DataEvent) :=
  let r :=
    { r with
      destGuidPrefix := participantGuidPrefix,
      source_version := message.header.version,
      source_vendor_id := message.header.vendor_id,
      sourceGuidPrefix := message.header.guidPrefixBytes,
      unicast_reply_locator_list := r.unicast_reply_locator_list ++
        [{ kind := source_locator.kind, port := LOCATOR_PORT_INVALID,
           address := source_locator.address }],
      multicast_reply_locator_list := r.multicast_reply_locator_list ++
        [{ kind := source_locator.kind, port := LOCATOR_PORT_INVALID,
           address := LOCATOR_ADDRESS_INVALID }] }
  process_message_go r [] message.submessages

inductive TopicKind
  | WithKey
  | NoKey
  deriving DecidableEq, Repr

inductive ReliabilityKind
  | BestEffort
  | Reliable
  deriving DecidableEq, Repr

structure Duration where
  seconds : Int
  fraction : Nat
  deriving DecidableEq, Repr

inductive ChangeKind
  | Alive
  | AliveFiltered
  | NotAliveDisposed
  | NotAliveUnregistered
  deriving DecidableEq, Repr

/-- The cache change returned by `new_change`
(`RtpsCacheChange {kind, writer_guid, instance_handle, sequence_number,
data_value, inline_qos}`). -/
structure RtpsCacheChange where
  kind : ChangeKind
  writer_guid : Guid
  instance_handle : Int
  sequence_number : Int
  data_value : List Nat
  inline_qos : List Parameter
  deriving DecidableEq, Repr

/-- Modelled from the spec: `WriterHistoryCache` of
`rtps_writer_history_cache_impl.rs` is not under src/; per §3 it is an
ordered collection of cache changes, empty at construction. -/
abbrev WriterHistoryCache := List RtpsCacheChange

/-- Modelled from the spec: `RtpsReaderProxyImpl` is not under src/; for the
stateful-writer claims only the remote reader guid is relevant. -/
structure RtpsReaderProxyImpl where
  remote_reader_guid : Guid
  deriving DecidableEq, Repr

/-- Embeds the `RtpsStatefulWriterImpl` struct of
`rtps_impl/rtps_stateful_writer_impl.rs`. -/
structure RtpsStatefulWriterImpl where
  guid : Guid
  topic_kind : TopicKind
  reliability_level : ReliabilityKind
  unicast_locator_list : List Locator
  multicast_locator_list : List Locator
  push_mode : Bool
  heartbeat_period : Duration
  nack_response_delay : Duration
  nack_suppression_duration : Duration
  last_change_sequence_number : Int
  data_max_size_serialized : Option Int
  writer_cache : WriterHistoryCache
  matched_readers : List RtpsReaderProxyImpl
  deriving DecidableEq, Repr

/-- Embeds `RtpsStatefulWriterConstructor::new`:
`last_change_sequence_number` starts at 0, the history cache and the
matched-reader list start empty. -/
def RtpsStatefulWriterImpl.new (guid : Guid) (topic_kind : TopicKind)
    (reliability_level : ReliabilityKind)
    (unicast_locator_list multicast_locator_list : List Locator)
    (push_mode : Bool)
    (heartbeat_period nack_response_delay nack_suppression_duration : Duration)
    (data_max_size_serialized : Option Int) : RtpsStatefulWriterImpl :=
  { guid, topic_kind, reliability_level, unicast_locator_list,
    multicast_locator_list, push_mode, heartbeat_period, nack_response_delay,
    nack_suppression_duration,
    last_change_sequence_number := 0,
    data_max_size_serialized,
    writer_cache := [],
    matched_readers := [] }

/-- Embeds `RtpsStatefulWriterOperations::is_acked_by_all` from
`rtps_impl/rtps_stateful_writer_impl.rs`: the body is `todo!()`, so every
call aborts; `none` models the panic (no boolean is ever returned). -/
def is_acked_by_all (w : RtpsStatefulWriterImpl) : Option Bool :=
  none

/-- Embeds `RtpsWriterOperations::new_change`: increment
`last_change_sequence_number` and return a cache change carrying the new
value (together with the updated writer). -/
def new_change (w : RtpsStatefulWriterImpl) (kind : ChangeKind)
    (data : List Nat) (inline_qos : List Parameter) (handle : Int) :
    RtpsCacheChange × RtpsStatefulWriterImpl :=
  let w2 := { w with
    last_change_sequence_number := w.last_change_sequence_number + 1 }
  ({ kind, writer_guid := w.guid, instance_handle := handle,
     sequence_number := w2.last_change_sequence_number,
     data_value := data, inline_qos }, w2)

/-- One `new_change` call's arguments. -/
structure NewChangeInput where
  kind : ChangeKind
  data : List Nat
  inline_qos : List Parameter
  handle : Int
  deriving Repr

/-- The cache changes returned by a sequence of `new_change` calls. -/
def run_new_changes : RtpsStatefulWriterImpl → List NewChangeInput →
    List RtpsCacheChange
  | _, [] => []
  | w, i :: rest =>
    let r := new_change w i.kind i.data i.inline_qos i.handle
    r.1 :: run_new_changes r.2 rest

end OldImpl

namespace Dcps

/-! Embedding of `DomainParticipantImpl::delete_publisher` from
`dds/src/implementation/dds_impl/domain_participant_impl.rs`. -/

/-- The DDS error taxonomy (`DdsError`). -/
inductive DdsError
  | Error
  | Unsupported
  | BadParameter
  | PreconditionNotMet (msg : String)
  | OutOfResources
  | NotEnabled
  | ImmutablePolicy
  | InconsistentPolicy
  | AlreadyDeleted
  | Timeout
  | NoData
  | IllegalOperation
  deriving DecidableEq, Repr

/-- A user-defined publisher as seen by `delete_publisher`: its instance
handle and the instance handles of the data writers it still owns. -/
structure UserDefinedPublisher where
  instance_handle : Nat
  data_writer_list : List Nat
  deriving DecidableEq, Repr

/-- The participant state consumed by `delete_publisher`. -/
structure DomainParticipantImpl where
  user_defined_publisher_list : List UserDefinedPublisher
  deriving DecidableEq, Repr

/-- Embeds `DomainParticipantImpl::delete_publisher`: look the handle up in
`user_defined_publisher_list` (`PreconditionNotMet` when absent), refuse with
`PreconditionNotMet` when the found publisher still owns data writers, and
otherwise retain only the publishers with a different handle. -/
def delete_publisher (p : DomainParticipantImpl) (a_publisher_handle : Nat) :
    Except DdsError DomainParticipantImpl :=
  match p.user_defined_publisher_list.find?
      (fun x => x.instance_handle == a_publisher_handle) with
  | none =>
    Except.error (DdsError.PreconditionNotMet
      ("Publisher can only be deleted from its parent participant"))
  | some x =>
    if x.data_writer_list.length > 0 then
      Except.error (DdsError.PreconditionNotMet
        ("Publisher still contains data writers"))
    else
      Except.ok
        { user_defined_publisher_list :=
            p.user_defined_publisher_list.filter
              (fun y => y.instance_handle != a_publisher_handle) }

/-! Sample participants used to exercise `delete_publisher` on concrete
inputs. -/

def samplePublisherWithWriter : UserDefinedPublisher :=
  { instance_handle := 1, data_writer_list := [7] }

def samplePublisherEmpty : UserDefinedPublisher :=
  { instance_handle := 1, data_writer_list := [] }

def sampleParticipantWithWriter : DomainParticipantImpl :=
  { user_defined_publisher_list := [samplePublisherWithWriter] }

def sampleParticipantEmpty : DomainParticipantImpl :=
  { user_defined_publisher_list := [samplePublisherEmpty] }

end Dcps

/-! Theorems: the spec claims checked against the embedding. -/

namespace UdpPsm

theorem wordsToBytes_length (ws : List Nat) :
    (wordsToBytes ws).length = 4 * ws.length := by
  induction ws with
  | nil => rfl
  | cons w ws ih => simp [wordsToBytes, u32le, ih]; ring

/-! Supporting lemmas for the SequenceNumberSet claims. -/

theorem getD_replicate_zero (i : Nat) :
    (List.replicate 8 (0 : Nat)).getD i 0 = 0 := by
  rw [List.getD_eq_getElem?_getD, List.getElem?_replicate]
  split <;> rfl

theorem toU32_small {n : Int} (h1 : 0 ≤ n) (h2 : n ≤ 255) :
    (toU32 n : Int) = n ∧ toU32 n < 256 := by
  unfold toU32; omega

theorem bitGet_bitmapSetBit (ws : List Nat) (e d : Nat) (hlen : ws.length = 8)
    (hd : d < 256) (he : e < 256) :
    (bitGet (bitmapSetBit ws (e / 32) (31 - e % 32)) d = true ↔
      bitGet ws d = true ∨ d = e) := by
  by_cases hw : d / 32 = e / 32
  · have hidx : e / 32 < ws.length := by omega
    have hset : (ws.set (e / 32) (ws.getD (e / 32) 0 ||| 2 ^ (31 - e % 32)))[e / 32]? =
        some (ws.getD (e / 32) 0 ||| 2 ^ (31 - e % 32)) := by
      rw [List.getElem?_set_self]
      exact hidx
    unfold bitGet bitmapSetBit
    rw [hw, List.getD_eq_getElem?_getD, hset]
    simp only [Option.getD_some, Nat.testBit_or, Bool.or_eq_true, Nat.testBit_two_pow]
    constructor
    · rintro (h | h)
      · exact Or.inl h
      · right
        have := of_decide_eq_true h
        omega
    · rintro (h | h)
      · exact Or.inl h
      · right
        subst h
        simp
  · unfold bitGet bitmapSetBit
    rw [List.getD_eq_getElem?_getD, List.getElem?_set_ne (by omega),
      ← List.getD_eq_getElem?_getD]
    constructor
    · intro h
      exact Or.inl h
    · rintro (h | h)
      · exact h
      · omega

theorem snSetFold_spec (base : Int) (l : List Int) (acc : List Nat × Nat)
    (hlen : acc.1.length = 8) (hnb : acc.2 ≤ 256)
    (hl : ∀ x ∈ l, 0 ≤ x - base ∧ x - base ≤ 255) :
    (l.foldl (snSetStep base) acc).1.length = 8 ∧
    acc.2 ≤ (l.foldl (snSetStep base) acc).2 ∧
    (l.foldl (snSetStep base) acc).2 ≤ 256 ∧
    (∀ x ∈ l, toU32 (x - base) < (l.foldl (snSetStep base) acc).2) ∧
    (∀ d, d < 256 →
      (bitGet (l.foldl (snSetStep base) acc).1 d = true ↔
        bitGet acc.1 d = true ∨ ∃ x ∈ l, toU32 (x - base) = d)) := by
  induction l generalizing acc with
  | nil =>
    refine ⟨hlen, le_refl _, hnb, by simp, ?_⟩
    intro d hd
    simp
  | cons x xs ih =>
    obtain ⟨hx1, hx2⟩ := hl x (List.mem_cons_self x xs)
    have hdelta : (toU32 (x - base) : Int) = x - base ∧ toU32 (x - base) < 256 :=
      toU32_small hx1 hx2
    have hstep1 : (snSetStep base acc x).1.length = 8 := by
      unfold snSetStep bitmapSetBit
      simp [hlen]
    have hstep2 : (snSetStep base acc x).2 ≤ 256 := by
      unfold snSetStep
      simp only
      split <;> omega
    have hstepGe : acc.2 ≤ (snSetStep base acc x).2 := by
      unfold snSetStep
      simp only
      split <;> omega
    have hstepDelta : toU32 (x - base) < (snSetStep base acc x).2 := by
      unfold snSetStep
      simp only
      split <;> omega
    have hxs : ∀ y ∈ xs, 0 ≤ y - base ∧ y - base ≤ 255 := by
      intro y hy
      exact hl y (List.mem_cons_of_mem x hy)
    obtain ⟨ih1, ih2, ih3, ih4, ih5⟩ := ih (snSetStep base acc x) hstep1 hstep2 hxs
    simp only [List.foldl_cons]
    refine ⟨ih1, le_trans hstepGe ih2, ih3, ?_, ?_⟩
    · intro y hy
      rcases List.mem_cons.mp hy with rfl | hy
      · exact lt_of_lt_of_le hstepDelta ih2
      · exact ih4 y hy
    · intro d hd
      have hstepBit : ∀ e, e < 256 →
          (bitGet (snSetStep base acc x).1 e = true ↔
            bitGet acc.1 e = true ∨ e = toU32 (x - base)) := by
        intro e he
        unfold snSetStep
        simp only
        exact bitGet_bitmapSetBit acc.1 (toU32 (x - base)) e hlen he hdelta.2
      rw [ih5 d hd, hstepBit d hd]
      constructor
      · rintro ((h | h) | ⟨y, hy, hyd⟩)
        · exact Or.inl h
        · exact Or.inr ⟨x, List.mem_cons_self x xs, h.symm⟩
        · exact Or.inr ⟨y, List.mem_cons_of_mem x hy, hyd⟩
      · rintro (h | ⟨y, hy, hyd⟩)
        · exact Or.inl (Or.inl h)
        · rcases List.mem_cons.mp hy with rfl | hy
          · exact Or.inl (Or.inr hyd.symm)
          · exact Or.inr ⟨y, hy, hyd⟩

theorem mem_setList (s : SequenceNumberSetUdp) (sn : Int) :
    sn ∈ s.setList ↔
      ∃ d : Nat, d < s.num_bits ∧ bitGet s.bitmap d = true ∧ sn = s.base.toI64 + d := by
  unfold SequenceNumberSetUdp.setList
  simp only [List.mem_map, List.mem_filter, List.mem_range]
  constructor
  · rintro ⟨d, ⟨h1, h2⟩, h3⟩
    exact ⟨d, h1, h2, h3.symm⟩
  · rintro ⟨d, h1, h2, h3⟩
    exact ⟨d, ⟨h1, h2⟩, h3.symm⟩

theorem new_base (b : Int) (l : List Int) :
    (SequenceNumberSetUdp.new b l).base = SequenceNumberUdp.ofI64 b := rfl

theorem new_num_bits (b : Int) (l : List Int) :
    (SequenceNumberSetUdp.new b l).num_bits =
      (l.foldl (snSetStep b) (List.replicate 8 0, 0)).2 := rfl

theorem new_bitmap (b : Int) (l : List Int) :
    (SequenceNumberSetUdp.new b l).bitmap =
      (l.foldl (snSetStep b) (List.replicate 8 0, 0)).1 := rfl

theorem mem_setList_new (b : Int) (l : List Int)
    (hb1 : -(2 ^ 63) ≤ b) (hb2 : b + 255 < 2 ^ 63)
    (hl : ∀ x ∈ l, b ≤ x ∧ x ≤ b + 255) :
    ∀ sn : Int, sn ∈ (SequenceNumberSetUdp.new b l).setList ↔ sn ∈ l := by
  intro sn
  have hl' : ∀ x ∈ l, 0 ≤ x - b ∧ x - b ≤ 255 := by
    intro x hx
    have := hl x hx
    omega
  obtain ⟨h1, h2, h3, h4, h5⟩ :=
    snSetFold_spec b l (List.replicate 8 0, 0) (by simp) (by omega) hl'
  have hbase : (SequenceNumberUdp.ofI64 b).toI64 = b :=
    SequenceNumberUdp.toI64_ofI64 hb1 (by omega)
  rw [mem_setList, new_base, new_num_bits, new_bitmap, hbase]
  constructor
  · rintro ⟨d, hdlt, hdbit, rfl⟩
    have hd256 : d < 256 := by omega
    rcases (h5 d hd256).mp hdbit with h | ⟨x, hx, hxd⟩
    · exfalso
      have h' : bitGet (List.replicate 8 0) d = true := h
      unfold bitGet at h'
      rw [getD_replicate_zero, Nat.zero_testBit] at h'
      exact Bool.false_ne_true h'
    · obtain ⟨hx1, hx2⟩ := hl' x hx
      have hxval := (toU32_small hx1 hx2).1
      have hbd : b + (d : Int) = x := by omega
      rwa [hbd]
  · intro hsn
    obtain ⟨hx1, hx2⟩ := hl' sn hsn
    have hxval := (toU32_small hx1 hx2).1
    refine ⟨toU32 (sn - b), h4 sn hsn, ?_, ?_⟩
    · exact (h5 _ (toU32_small hx1 hx2).2).mpr (Or.inr ⟨sn, hsn, rfl⟩)
    · omega

theorem serializeBytes_length (s : SequenceNumberSetUdp)
    (hlen : s.bitmap.length = 8) (hnb : s.num_bits ≤ 256) :
    s.serializeBytes.length = s.len := by
  unfold SequenceNumberSetUdp.serializeBytes SequenceNumberSetUdp.len
  simp only [List.length_append, i32le, u32le, List.length_cons, List.length_nil,
    wordsToBytes_length, List.length_take, hlen]
  omega

/-- C8: for every SequenceNumberSet with an 8-word bitmap and
`num_bits ≤ 256`, (a) the serializer emits exactly `len` bytes and `len`
equals `12 + 4 * ⌈num_bits / 32⌉` (the ceiling division written as
`(num_bits + 31) / 32`); (b) a sequence number is a member of the set iff
`0 ≤ s − base < num_bits` and bitmap bit `delta_n = s − base` is set; and
constructing a set from any list of sequence numbers inside `[b, b + 255]`
and reading the members back yields exactly those numbers. -/
theorem sequence_number_set_codec_correct
    (s : SequenceNumberSetUdp) (sn b : Int) (l : List Int)
    (hs_len : s.bitmap.length = 8) (hs_nb : s.num_bits ≤ 256)
    (hb1 : -(2 ^ 63) ≤ b) (hb2 : b + 255 < 2 ^ 63)
    (hl : ∀ x ∈ l, b ≤ x ∧ x ≤ b + 255) :
    (s.serializeBytes.length = s.len ∧
      s.len = 12 + 4 * ((s.num_bits + 31) / 32)) ∧
    (sn ∈ s.setList ↔
      0 ≤ sn - s.base.toI64 ∧ sn - s.base.toI64 < (s.num_bits : Int) ∧
        bitGet s.bitmap (sn - s.base.toI64).toNat = true) ∧
    (∀ t : Int, t ∈ (SequenceNumberSetUdp.new b l).setList ↔ t ∈ l) := by
  refine ⟨⟨serializeBytes_length s hs_len hs_nb, rfl⟩, ?_,
    mem_setList_new b l hb1 hb2 hl⟩
  rw [mem_setList]
  constructor
  · rintro ⟨d, h1, h2, rfl⟩
    have hd : ((s.base.toI64 + (d : Int)) - s.base.toI64).toNat = d := by omega
    refine ⟨by omega, by omega, ?_⟩
    rw [hd]
    exact h2
  · rintro ⟨h1, h2, h3⟩
    exact ⟨(sn - s.base.toI64).toNat, by omega, h3, by omega⟩

theorem sequence_number_set_codec_correct_witness :
    ((SequenceNumberSetUdp.new 2 [2, 3]).bitmap.length = 8 ∧
      (SequenceNumberSetUdp.new 2 [2, 3]).num_bits ≤ 256) ∧
    (((SequenceNumberSetUdp.new 2 [2, 3]).serializeBytes.length =
        (SequenceNumberSetUdp.new 2 [2, 3]).len ∧
      (SequenceNumberSetUdp.new 2 [2, 3]).len =
        12 + 4 * (((SequenceNumberSetUdp.new 2 [2, 3]).num_bits + 31) / 32)) ∧
    ((2 : Int) ∈ (SequenceNumberSetUdp.new 2 [2, 3]).setList ↔
      0 ≤ (2 : Int) - (SequenceNumberSetUdp.new 2 [2, 3]).base.toI64 ∧
      (2 : Int) - (SequenceNumberSetUdp.new 2 [2, 3]).base.toI64 <
        ((SequenceNumberSetUdp.new 2 [2, 3]).num_bits : Int) ∧
        bitGet (SequenceNumberSetUdp.new 2 [2, 3]).bitmap
          ((2 - (SequenceNumberSetUdp.new 2 [2, 3]).base.toI64).toNat) = true) ∧
    (∀ t : Int, t ∈ (SequenceNumberSetUdp.new 2 [2, 3]).setList ↔ t ∈ [2, 3])) :=
  ⟨⟨by decide, by decide⟩,
    sequence_number_set_codec_correct (SequenceNumberSetUdp.new 2 [2, 3]) 2 2
      [2, 3] (by decide) (by decide) (by decide) (by decide) (by decide)⟩

/-- C1: the spec claims `read(write(x)) == x` for every valid submessage and
either endianness, including AckNack; but in the rtps_udp_psm codec the
`Serialize` implementation for `AckNackSubmessage` is `todo!()`, so encoding
an AckNack submessage aborts and never produces a byte sequence to decode,
under either byte order. -/
theorem acknack_serialize_is_todo :
    serializeAckNack
        { endianness_flag := true, final_flag := false,
          reader_id := { entity_key := [1, 2, 3], entity_kind := 4 },
          writer_id := { entity_key := [6, 7, 8], entity_kind := 9 },
          reader_sn_state_base := 10, reader_sn_state_set := [],
          count := 0 } ByteOrder.littleEndian = none ∧
    serializeAckNack
        { endianness_flag := false, final_flag := false,
          reader_id := { entity_key := [1, 2, 3], entity_kind := 4 },
          writer_id := { entity_key := [6, 7, 8], entity_kind := 9 },
          reader_sn_state_base := 10, reader_sn_state_set := [],
          count := 0 } ByteOrder.bigEndian = none :=
  ⟨rfl, rfl⟩

end UdpPsm

namespace Rtps

theorem contains_iff_mem (l : List Int) (a : Int) : l.contains a = true ↔ a ∈ l := by
  simp [List.contains]

theorem listMin_eq_none (l : List Int) : listMin l = none ↔ l = [] := by
  cases l with
  | nil => simp [listMin]
  | cons x xs =>
    simp only [listMin]
    cases listMin xs <;> simp

theorem listMin_spec (l : List Int) (m : Int) (h : listMin l = some m) :
    m ∈ l ∧ ∀ x ∈ l, m ≤ x := by
  induction l generalizing m with
  | nil => cases h
  | cons x xs ih =>
    unfold listMin at h
    cases hxs : listMin xs with
    | none =>
      rw [hxs] at h
      simp only [Option.some.injEq] at h
      subst h
      have hnil : xs = [] := (listMin_eq_none xs).mp hxs
      subst hnil
      refine ⟨List.mem_cons_self x [], ?_⟩
      intro y hy
      rcases List.mem_cons.mp hy with rfl | hy
      · exact le_refl y
      · cases hy
    | some m' =>
      rw [hxs] at h
      simp only [Option.some.injEq] at h
      subst h
      obtain ⟨hmem, hbound⟩ := ih m' hxs
      constructor
      · rcases le_total x m' with hxm | hxm
        · rw [min_eq_left hxm]
          exact List.mem_cons_self x xs
        · rw [min_eq_right hxm]
          exact List.mem_cons_of_mem x hmem
      · intro y hy
        rcases List.mem_cons.mp hy with hyx | hy
        · rw [hyx]
          exact min_le_left x m'
        · exact le_trans (min_le_right x m') (hbound y hy)

theorem acked_changes_set_eq_max (p : RtpsReaderProxy) (c : Int) :
    (p.acked_changes_set c).highest_acked_seq_num =
      max p.highest_acked_seq_num c := by
  by_cases hc : c > p.highest_acked_seq_num <;>
    simp [RtpsReaderProxy.acked_changes_set, hc] <;> omega

theorem acked_changes_set_requested (p : RtpsReaderProxy) (c : Int) :
    (p.acked_changes_set c).requested_changes = p.requested_changes := by
  unfold RtpsReaderProxy.acked_changes_set
  split <;> rfl

theorem acked_changes_set_sent (p : RtpsReaderProxy) (c : Int) :
    (p.acked_changes_set c).highest_sent_seq_num = p.highest_sent_seq_num := by
  unfold RtpsReaderProxy.acked_changes_set
  split <;> rfl

theorem set_highest_sent_eq_max (p : RtpsReaderProxy) (s : Int) :
    (p.set_highest_sent_seq_num s).highest_sent_seq_num =
      max p.highest_sent_seq_num s := by
  by_cases hs : s > p.highest_sent_seq_num <;>
    simp [RtpsReaderProxy.set_highest_sent_seq_num, hs] <;> omega

theorem set_highest_sent_acked (p : RtpsReaderProxy) (s : Int) :
    (p.set_highest_sent_seq_num s).highest_acked_seq_num =
      p.highest_acked_seq_num := by
  unfold RtpsReaderProxy.set_highest_sent_seq_num
  split <;> rfl

theorem set_highest_sent_first_relevant (p : RtpsReaderProxy) (s : Int) :
    (p.set_highest_sent_seq_num s).first_relevant_sample_seq_num =
      p.first_relevant_sample_seq_num := by
  unfold RtpsReaderProxy.set_highest_sent_seq_num
  split <;> rfl

theorem requested_changes_set_cons (p : RtpsReaderProxy) (x : Int) (xs : List Int) :
    p.requested_changes_set (x :: xs) =
      RtpsReaderProxy.requested_changes_set
        (if p.requested_changes.contains x then p
         else { p with requested_changes := p.requested_changes ++ [x] }) xs := rfl

theorem requested_changes_set_mem (p : RtpsReaderProxy) (l : List Int) (sn : Int) :
    sn ∈ (p.requested_changes_set l).requested_changes ↔
      sn ∈ p.requested_changes ∨ sn ∈ l := by
  induction l generalizing p with
  | nil => simp [RtpsReaderProxy.requested_changes_set]
  | cons x xs ih =>
    rw [requested_changes_set_cons, ih]
    by_cases hc : p.requested_changes.contains x
    · rw [if_pos hc]
      have hx : x ∈ p.requested_changes := (contains_iff_mem _ _).mp hc
      simp only [List.mem_cons]
      constructor
      · rintro (h | h)
        · exact Or.inl h
        · exact Or.inr (Or.inr h)
      · rintro (h | rfl | h)
        · exact Or.inl h
        · exact Or.inl hx
        · exact Or.inr h
    · rw [if_neg hc]
      simp only [List.mem_append, List.mem_singleton, List.mem_cons]
      tauto

theorem requested_changes_set_fields (p : RtpsReaderProxy) (l : List Int) :
    (p.requested_changes_set l).highest_acked_seq_num = p.highest_acked_seq_num ∧
    (p.requested_changes_set l).highest_sent_seq_num = p.highest_sent_seq_num := by
  induction l generalizing p with
  | nil => exact ⟨rfl, rfl⟩
  | cons x xs ih =>
    rw [requested_changes_set_cons]
    by_cases hc : p.requested_changes.contains x
    · rw [if_pos hc]
      exact ih p
    · rw [if_neg hc]
      exact ih { p with requested_changes := p.requested_changes ++ [x] }

theorem next_requested_change_fields (q : RtpsReaderProxy) :
    q.next_requested_change.2.highest_acked_seq_num = q.highest_acked_seq_num ∧
    q.next_requested_change.2.highest_sent_seq_num = q.highest_sent_seq_num := by
  unfold RtpsReaderProxy.next_requested_change
  cases hq : listMin q.requested_changes <;> simp

theorem next_requested_change_spec (q : RtpsReaderProxy) (m : Int)
    (h : q.next_requested_change.1 = some m) :
    m ∈ q.requested_changes ∧ (∀ x ∈ q.requested_changes, m ≤ x) ∧
      m ∉ q.next_requested_change.2.requested_changes := by
  unfold RtpsReaderProxy.next_requested_change at h ⊢
  cases hq : listMin q.requested_changes with
  | none =>
    rw [hq] at h
    cases h
  | some m' =>
    rw [hq] at h
    simp only [Option.some.injEq] at h
    subst h
    obtain ⟨hmem, hbound⟩ := listMin_spec _ _ hq
    refine ⟨hmem, hbound, ?_⟩
    simp [List.mem_filter]

/-- C10: the proxy's high-water marks never decrease.  `acked_changes_set`
raises `highest_acked_seq_num` exactly when its argument is strictly larger
(and leaves it unchanged otherwise), `set_highest_sent_seq_num` does the same
for `highest_sent_seq_num`, and across every sequence of reader-proxy
operations both fields are monotone. -/
theorem reader_proxy_high_water_marks (p : RtpsReaderProxy) (c s : Int)
    (ops : List ProxyOp) :
    ((p.acked_changes_set c).highest_acked_seq_num =
      if c > p.highest_acked_seq_num then c else p.highest_acked_seq_num) ∧
    ((p.set_highest_sent_seq_num s).highest_sent_seq_num =
      if s > p.highest_sent_seq_num then s else p.highest_sent_seq_num) ∧
    p.highest_acked_seq_num ≤ (applyOps p ops).highest_acked_seq_num ∧
    p.highest_sent_seq_num ≤ (applyOps p ops).highest_sent_seq_num := by
  have hop : ∀ (q : RtpsReaderProxy) (o : ProxyOp),
      q.highest_acked_seq_num ≤ (applyOp q o).highest_acked_seq_num ∧
      q.highest_sent_seq_num ≤ (applyOp q o).highest_sent_seq_num := by
    intro q o
    cases o with
    | ackedChangesSet c =>
      simp only [applyOp, acked_changes_set_eq_max, acked_changes_set_sent]
      exact ⟨le_max_left _ _, le_refl _⟩
    | requestedChangesSet l =>
      obtain ⟨h1, h2⟩ := requested_changes_set_fields q l
      simp only [applyOp, h1, h2]
      exact ⟨le_refl _, le_refl _⟩
    | nextRequestedChange =>
      obtain ⟨h1, h2⟩ := next_requested_change_fields q
      simp only [applyOp, h1, h2]
      exact ⟨le_refl _, le_refl _⟩
    | setHighestSentSeqNum s =>
      simp only [applyOp, set_highest_sent_eq_max, set_highest_sent_acked]
      exact ⟨le_refl _, le_max_left _ _⟩
    | setFirstRelevantSampleSeqNum s => exact ⟨le_refl _, le_refl _⟩
    | setLastReceivedAcknackCount c => exact ⟨le_refl _, le_refl _⟩
    | setLastReceivedNackFragCount c => exact ⟨le_refl _, le_refl _⟩
    | onAcknack a =>
      simp only [applyOp]
      unfold on_acknack_submessage_received
      split
      · have hreq := requested_changes_set_fields
          (q.acked_changes_set (a.reader_sn_state_base - 1)) a.reader_sn_state_set
        constructor
        · show q.highest_acked_seq_num ≤
            ((q.acked_changes_set (a.reader_sn_state_base - 1)).requested_changes_set
              a.reader_sn_state_set).highest_acked_seq_num
          rw [hreq.1, acked_changes_set_eq_max]
          exact le_max_left _ _
        · show q.highest_sent_seq_num ≤
            ((q.acked_changes_set (a.reader_sn_state_base - 1)).requested_changes_set
              a.reader_sn_state_set).highest_sent_seq_num
          rw [hreq.2, acked_changes_set_sent]
      · exact ⟨le_refl _, le_refl _⟩
  have hops : ∀ (ops : List ProxyOp) (q : RtpsReaderProxy),
      q.highest_acked_seq_num ≤ (applyOps q ops).highest_acked_seq_num ∧
      q.highest_sent_seq_num ≤ (applyOps q ops).highest_sent_seq_num := by
    intro ops
    induction ops with
    | nil => exact fun q => ⟨le_refl _, le_refl _⟩
    | cons o os ih =>
      intro q
      obtain ⟨h1, h2⟩ := hop q o
      obtain ⟨h3, h4⟩ := ih (applyOp q o)
      exact ⟨le_trans h1 h3, le_trans h2 h4⟩
  refine ⟨?_, ?_, (hops ops p).1, (hops ops p).2⟩
  · by_cases hc : c > p.highest_acked_seq_num <;>
      simp [RtpsReaderProxy.acked_changes_set, hc]
  · by_cases hs : s > p.highest_sent_seq_num <;>
      simp [RtpsReaderProxy.set_highest_sent_seq_num, hs]

/-- C4: processing a non-stale AckNack (count strictly above
`last_received_acknack_count`) sets `highest_acked_seq_num` to
`max(current, reader_sn_state.base − 1)` and replaces `requested_changes`
with the union of the current requested changes and the sequence numbers of
the AckNack bitmap; a subsequent send cycle drains the requested changes
smallest-first, each drained sequence number being removed from the set. -/
theorem process_acknack_updates_proxy (p : RtpsReaderProxy)
    (a : AckNackSubmessage)
    (hfresh : a.count > p.last_received_acknack_count) :
    ((on_acknack_submessage_received p a).highest_acked_seq_num =
      max p.highest_acked_seq_num (a.reader_sn_state_base - 1)) ∧
    (∀ sn : Int, sn ∈ (on_acknack_submessage_received p a).requested_changes ↔
      sn ∈ p.requested_changes ∨ sn ∈ a.reader_sn_state_set) ∧
    (∀ (q : RtpsReaderProxy) (m : Int), q.next_requested_change.1 = some m →
      m ∈ q.requested_changes ∧ (∀ x ∈ q.requested_changes, m ≤ x) ∧
      m ∉ q.next_requested_change.2.requested_changes) := by
  unfold on_acknack_submessage_received
  rw [if_pos hfresh]
  refine ⟨?_, ?_, fun q m h => next_requested_change_spec q m h⟩
  · show ((p.acked_changes_set (a.reader_sn_state_base - 1)).requested_changes_set
        a.reader_sn_state_set).highest_acked_seq_num = _
    rw [(requested_changes_set_fields _ _).1, acked_changes_set_eq_max]
  · intro sn
    show sn ∈ ((p.acked_changes_set
          (a.reader_sn_state_base - 1)).requested_changes_set
        a.reader_sn_state_set).requested_changes ↔ _
    rw [requested_changes_set_mem, acked_changes_set_requested]

theorem process_acknack_updates_proxy_witness :
    sampleAckNack.count > sampleProxy.last_received_acknack_count ∧
    (((on_acknack_submessage_received sampleProxy sampleAckNack).highest_acked_seq_num =
      max sampleProxy.highest_acked_seq_num (sampleAckNack.reader_sn_state_base - 1)) ∧
    (∀ sn : Int,
      sn ∈ (on_acknack_submessage_received sampleProxy sampleAckNack).requested_changes ↔
      sn ∈ sampleProxy.requested_changes ∨ sn ∈ sampleAckNack.reader_sn_state_set) ∧
    (∀ (q : RtpsReaderProxy) (m : Int), q.next_requested_change.1 = some m →
      m ∈ q.requested_changes ∧ (∀ x ∈ q.requested_changes, m ≤ x) ∧
      m ∉ q.next_requested_change.2.requested_changes)) :=
  ⟨by decide,
    process_acknack_updates_proxy sampleProxy sampleAckNack (by decide)⟩

theorem hbCountAfter_closed (rid wid : EntityId) (f l : Int) (n : Nat) :
    hbCountAfter rid wid f l n = wrapI32 n := by
  induction n with
  | zero =>
    show (0 : Int) = wrapI32 0
    unfold wrapI32
    omega
  | succ n ih =>
    show Count.wrapping_add (hbMachineAfter rid wid f l n).count 1 =
      wrapI32 (↑(n + 1))
    rw [show (hbMachineAfter rid wid f l n).count =
        hbCountAfter rid wid f l n from rfl, ih]
    unfold Count.wrapping_add wrapI32
    push_cast
    omega

/-- C6 counterexample: starting from a fresh heartbeat machine, the
2147483648-th generated heartbeat carries count −2147483648, strictly smaller
than the count 2147483647 carried by the heartbeat generated just before it,
so the counts are not strictly increasing over the whole lifetime. -/
theorem heartbeat_count_wraps_at_two_pow_31 :
    hbCountAfter { entity_key := [0, 0, 0], entity_kind := 7 }
        { entity_key := [0, 0, 1], entity_kind := 2 } 1 3 2147483648 <
      hbCountAfter { entity_key := [0, 0, 0], entity_kind := 7 }
        { entity_key := [0, 0, 1], entity_kind := 2 } 1 3 2147483647 := by
  rw [hbCountAfter_closed, hbCountAfter_closed]
  unfold wrapI32
  omega

/-- C6 (amended): each generated heartbeat increments the count by exactly one
with 32-bit wrap-around, so the counts carried by successively generated
heartbeats are strictly increasing as long as fewer than 2^31 heartbeats have
been generated on the proxy. -/
theorem heartbeat_count_increasing_before_wrap (rid wid : EntityId)
    (f l : Int) (m n : Nat) (hmn : m < n) (hn : n < 2 ^ 31) :
    hbCountAfter rid wid f l m < hbCountAfter rid wid f l n := by
  rw [hbCountAfter_closed, hbCountAfter_closed]
  unfold wrapI32
  omega

theorem heartbeat_count_increasing_before_wrap_witness :
    (1 < 2 ∧ 2 < 2 ^ 31) ∧
    hbCountAfter { entity_key := [0, 0, 0], entity_kind := 7 }
        { entity_key := [0, 0, 1], entity_kind := 2 } 1 3 1 <
      hbCountAfter { entity_key := [0, 0, 0], entity_kind := 7 }
        { entity_key := [0, 0, 1], entity_kind := 2 } 1 3 2 :=
  ⟨⟨by decide, by decide⟩,
    heartbeat_count_increasing_before_wrap
      { entity_key := [0, 0, 0], entity_kind := 7 }
      { entity_key := [0, 0, 1], entity_kind := 2 } 1 3 1 2
      (by decide) (by decide)⟩

theorem next_unsent_change_none (w : RtpsWriter) (p : RtpsReaderProxy)
    (h : next_unsent_change w p = none) :
    ∀ x ∈ w.change_list.map (fun cc => cc.sequence_number),
      ¬ x > p.highest_sent_seq_num := by
  unfold next_unsent_change at h
  have hnil := (listMin_eq_none _).mp h
  intro x hx hgt
  have hmem : x ∈ (w.change_list.map (fun cc => cc.sequence_number)).filter
      (fun cc_sn => decide (cc_sn > p.highest_sent_seq_num)) :=
    List.mem_filter.mpr ⟨hx, by simpa using hgt⟩
  rw [hnil] at hmem
  cases hmem

theorem next_unsent_change_some (w : RtpsWriter) (p : RtpsReaderProxy)
    (sn : Int) (h : next_unsent_change w p = some sn) :
    (sn ∈ w.change_list.map (fun cc => cc.sequence_number) ∧
      sn > p.highest_sent_seq_num) ∧
    ∀ x ∈ w.change_list.map (fun cc => cc.sequence_number),
      x > p.highest_sent_seq_num → sn ≤ x := by
  unfold next_unsent_change at h
  obtain ⟨hmem, hbound⟩ := listMin_spec _ _ h
  obtain ⟨hm, hgt⟩ := List.mem_filter.mp hmem
  refine ⟨⟨hm, by simpa using hgt⟩, ?_⟩
  intro x hx hgtx
  exact hbound x (List.mem_filter.mpr ⟨hx, by simpa using hgtx⟩)

theorem unsent_count_decreases (w : RtpsWriter) (p : RtpsReaderProxy) (sn : Int)
    (h : next_unsent_change w p = some sn) :
    ((w.change_list.map (fun cc => cc.sequence_number)).filter
        (fun x => decide (x > sn))).length <
      ((w.change_list.map (fun cc => cc.sequence_number)).filter
        (fun x => decide (x > p.highest_sent_seq_num))).length := by
  obtain ⟨⟨hm, hgt⟩, hmin⟩ := next_unsent_change_some w p sn h
  have hsub : (w.change_list.map (fun cc => cc.sequence_number)).filter
        (fun x => decide (x > sn)) =
      ((w.change_list.map (fun cc => cc.sequence_number)).filter
        (fun x => decide (x > p.highest_sent_seq_num))).filter
        (fun x => decide (x > sn)) := by
    rw [List.filter_filter]
    apply List.filter_congr
    intro x hx
    by_cases hx2 : x > sn
    · simp [hx2, show x > p.highest_sent_seq_num by omega]
    · simp [hx2]
  rw [hsub]
  apply List.length_filter_lt_length_iff_exists.mpr
  refine ⟨sn, List.mem_filter.mpr ⟨hm, by simpa using hgt⟩, ?_⟩
  simp

/-- C5: in a send cycle the next change selected for sending as DATA is the
minimum cache-change sequence number `sn` with `sn > highest_sent_seq_num`
and `sn ≥ first_relevant_sample_seq_num`; no cache change below
`first_relevant_sample_seq_num` is ever selected as DATA for that reader, and
`highest_sent_seq_num` equals the sent sequence number afterwards. -/
theorem send_cycle_selects_min_relevant (w : RtpsWriter) (p : RtpsReaderProxy)
    (fuel : Nat)
    (hfuel : ((w.change_list.map (fun cc => cc.sequence_number)).filter
        (fun sn => decide (sn > p.highest_sent_seq_num))).length ≤ fuel) :
    (∀ sn : Int, (send_loop_first_data w p fuel).1 = some sn →
      sn ∈ w.change_list.map (fun cc => cc.sequence_number) ∧
      sn > p.highest_sent_seq_num ∧
      sn ≥ p.first_relevant_sample_seq_num ∧
      (∀ x ∈ w.change_list.map (fun cc => cc.sequence_number),
        x > p.highest_sent_seq_num → x ≥ p.first_relevant_sample_seq_num →
          sn ≤ x) ∧
      (send_loop_first_data w p fuel).2.highest_sent_seq_num = sn) ∧
    ((send_loop_first_data w p fuel).1 = none →
      ∀ x ∈ w.change_list.map (fun cc => cc.sequence_number),
        ¬(x > p.highest_sent_seq_num ∧ x ≥ p.first_relevant_sample_seq_num)) := by
  induction fuel generalizing p with
  | zero =>
    have hnil : (w.change_list.map (fun cc => cc.sequence_number)).filter
        (fun sn => decide (sn > p.highest_sent_seq_num)) = [] :=
      List.length_eq_zero.mp (Nat.le_zero.mp hfuel)
    constructor
    · intro sn hsn
      simp [send_loop_first_data] at hsn
    · rintro _ x hx ⟨hgt, _⟩
      have hmem : x ∈ (w.change_list.map (fun cc => cc.sequence_number)).filter
          (fun sn => decide (sn > p.highest_sent_seq_num)) :=
        List.mem_filter.mpr ⟨hx, by simpa using hgt⟩
      rw [hnil] at hmem
      cases hmem
  | succ fuel ih =>
    cases hnu : next_unsent_change w p with
    | none =>
      have heq : send_loop_first_data w p (fuel + 1) = (none, p) := by
        unfold send_loop_first_data
        rw [hnu]
      constructor
      · intro sn hsn
        rw [heq] at hsn
        cases hsn
      · rintro _ x hx ⟨hgt, _⟩
        exact next_unsent_change_none w p hnu x hx hgt
    | some sn =>
      obtain ⟨⟨hm, hgt⟩, hmin⟩ := next_unsent_change_some w p sn hnu
      by_cases hge : sn ≥ p.first_relevant_sample_seq_num
      · have heq : send_loop_first_data w p (fuel + 1) =
            (some sn, p.set_highest_sent_seq_num sn) := by
          unfold send_loop_first_data
          rw [hnu]
          simp [hge]
        constructor
        · intro t ht
          rw [heq] at ht
          simp only [Option.some.injEq] at ht
          subst ht
          refine ⟨hm, hgt, hge, ?_, ?_⟩
          · intro x hx hgtx _
            exact hmin x hx hgtx
          · rw [heq]
            show (p.set_highest_sent_seq_num sn).highest_sent_seq_num = sn
            rw [set_highest_sent_eq_max]
            omega
        · intro hnone
          rw [heq] at hnone
          cases hnone
      · have hlt : sn < p.first_relevant_sample_seq_num := by omega
        have hp2sent : (p.set_highest_sent_seq_num sn).highest_sent_seq_num = sn := by
          rw [set_highest_sent_eq_max]
          omega
        have hp2rel := set_highest_sent_first_relevant p sn
        have hstep : send_loop_first_data w p (fuel + 1) =
            (match next_unsent_change w p with
             | none => (none, p)
             | some s =>
               if s ≥ p.first_relevant_sample_seq_num then
                 (some s, p.set_highest_sent_seq_num s)
               else send_loop_first_data w (p.set_highest_sent_seq_num s) fuel) :=
          rfl
        have heq : send_loop_first_data w p (fuel + 1) =
            send_loop_first_data w (p.set_highest_sent_seq_num sn) fuel := by
          rw [hstep, hnu]
          simp [hge]
        have hfuel2 : ((w.change_list.map (fun cc => cc.sequence_number)).filter
            (fun x => decide
              (x > (p.set_highest_sent_seq_num sn).highest_sent_seq_num))).length ≤
              fuel := by
          rw [hp2sent]
          have := unsent_count_decreases w p sn hnu
          omega
        obtain ⟨ihsome, ihnone⟩ := ih (p.set_highest_sent_seq_num sn) hfuel2
        constructor
        · intro t ht
          rw [heq] at ht
          obtain ⟨h1, h2, h3, h4, h5⟩ := ihsome t ht
          rw [hp2sent] at h2
          rw [hp2rel] at h3
          refine ⟨h1, by omega, h3, ?_, ?_⟩
          · intro x hx hgtx hgex
            have hxgt : x > (p.set_highest_sent_seq_num sn).highest_sent_seq_num := by
              rw [hp2sent]
              omega
            exact h4 x hx hxgt (by rwa [hp2rel])
          · rw [heq]
            exact h5
        · rintro hnone x hx ⟨hgtx, hgex⟩
          rw [heq] at hnone
          refine ihnone hnone x hx ⟨?_, by rwa [hp2rel]⟩
          rw [hp2sent]
          omega

theorem send_cycle_selects_min_relevant_witness :
    ((sampleWriter.change_list.map (fun cc => cc.sequence_number)).filter
        (fun sn => decide (sn > sampleProxy.highest_sent_seq_num))).length ≤ 3 ∧
    ((∀ sn : Int, (send_loop_first_data sampleWriter sampleProxy 3).1 = some sn →
      sn ∈ sampleWriter.change_list.map (fun cc => cc.sequence_number) ∧
      sn > sampleProxy.highest_sent_seq_num ∧
      sn ≥ sampleProxy.first_relevant_sample_seq_num ∧
      (∀ x ∈ sampleWriter.change_list.map (fun cc => cc.sequence_number),
        x > sampleProxy.highest_sent_seq_num →
          x ≥ sampleProxy.first_relevant_sample_seq_num → sn ≤ x) ∧
      (send_loop_first_data sampleWriter sampleProxy 3).2.highest_sent_seq_num = sn) ∧
    ((send_loop_first_data sampleWriter sampleProxy 3).1 = none →
      ∀ x ∈ sampleWriter.change_list.map (fun cc => cc.sequence_number),
        ¬(x > sampleProxy.highest_sent_seq_num ∧
          x ≥ sampleProxy.first_relevant_sample_seq_num))) :=
  ⟨by decide, send_cycle_selects_min_relevant sampleWriter sampleProxy 3 (by decide)⟩

end Rtps

namespace OldImpl

/-- C2: the spec claims the message receiver updates `dest_guid_prefix` on
INFO_DST and never aborts on a datagram containing an INFO_DST submessage; but
in the source the `InfoDestination` arm of `process_message` is `todo!()`, so
the receiver aborts (panics) on the first INFO_DST submessage and never
updates the destination guid prefix. -/
theorem process_message_aborts_on_info_destination :
    process_message MessageReceiver.new (List.replicate 12 1)
        { kind := 1, port := 7400, address := List.replicate 16 1 }
        { header := { version := PROTOCOLVERSION, vendor_id := [99, 99],
                      guidPrefixBytes := List.replicate 12 1 },
          submessages :=
            [RtpsSubmessageTypeRead.InfoDestination (List.replicate 12 2)] } =
      none := rfl

/-- C3: the spec claims `is_acked_by_all` returns a boolean for every writer
state (including a writer with no matched readers); but the source body is
`todo!()`, so the call aborts (panics) even on a freshly constructed writer
with no matched readers. -/
theorem is_acked_by_all_aborts_on_fresh_writer :
    is_acked_by_all
        (RtpsStatefulWriterImpl.new
          { guidPrefixBytes := List.replicate 12 1,
            entity_id := { entity_key := [0, 0, 1], entity_kind := 0xc2 } }
          TopicKind.WithKey ReliabilityKind.Reliable [] [] true
          { seconds := 1, fraction := 0 } { seconds := 0, fraction := 0 }
          { seconds := 0, fraction := 0 } none) = none := rfl

theorem run_new_changes_closed (w : RtpsStatefulWriterImpl)
    (inputs : List NewChangeInput) :
    (run_new_changes w inputs).map (fun cc => cc.sequence_number) =
      (List.range inputs.length).map
        (fun (k : Nat) => w.last_change_sequence_number + 1 + (k : Int)) := by
  induction inputs generalizing w with
  | nil => rfl
  | cons i rest ih =>
    simp only [run_new_changes, new_change, List.map_cons, List.length_cons]
    rw [ih, List.range_succ_eq_map, List.map_cons, List.map_map]
    congr 1
    · simp
    · apply List.map_congr_left
      intro k hk
      show w.last_change_sequence_number + 1 + 1 + (k : Int) =
        w.last_change_sequence_number + 1 + ((Nat.succ k : Nat) : Int)
      push_cast
      ring

/-- C7: for every writer and every sequence of `new_change` calls with
arbitrary kinds, payloads, inline qos and instance handles, the n-th call on
a freshly constructed writer returns a cache change whose sequence number is
exactly n (sequence numbers start at 1 and increase by exactly 1 per
call). -/
theorem nth_new_change_has_sequence_number_n (guid : Guid)
    (topic_kind : TopicKind) (reliability_level : ReliabilityKind)
    (unicast_locator_list multicast_locator_list : List Locator)
    (push_mode : Bool)
    (heartbeat_period nack_response_delay nack_suppression_duration : Duration)
    (data_max_size_serialized : Option Int) (inputs : List NewChangeInput) :
    (run_new_changes
        (RtpsStatefulWriterImpl.new guid topic_kind reliability_level
          unicast_locator_list multicast_locator_list push_mode
          heartbeat_period nack_response_delay nack_suppression_duration
          data_max_size_serialized) inputs).map (fun cc => cc.sequence_number) =
      (List.range inputs.length).map (fun (k : Nat) => (k : Int) + 1) := by
  rw [run_new_changes_closed]
  apply List.map_congr_left
  intro k hk
  show (0 : Int) + 1 + (k : Int) = (k : Int) + 1
  ring

end OldImpl

namespace Dcps

/-- C9: `delete_publisher` returns `PreconditionNotMet` when the handle is
not in the participant's publisher list, returns `PreconditionNotMet` (and
removes nothing) when the found publisher still owns at least one data
writer, and only for a found publisher with an empty data-writer list removes
it and returns Ok. -/
theorem delete_publisher_preconditions (p : DomainParticipantImpl) (h : Nat) :
    ((∀ pub ∈ p.user_defined_publisher_list, pub.instance_handle ≠ h) →
      delete_publisher p h =
        Except.error (DdsError.PreconditionNotMet
          ("Publisher can only be deleted from its parent participant"))) ∧
    (∀ pub, p.user_defined_publisher_list.find?
        (fun x => x.instance_handle == h) = some pub →
      pub.data_writer_list ≠ [] →
      delete_publisher p h =
        Except.error (DdsError.PreconditionNotMet
          ("Publisher still contains data writers"))) ∧
    (∀ pub, p.user_defined_publisher_list.find?
        (fun x => x.instance_handle == h) = some pub →
      pub.data_writer_list = [] →
      delete_publisher p h =
        Except.ok { user_defined_publisher_list :=
          (p.user_defined_publisher_list.filter (fun y => y.instance_handle != h)) } ∧
      ∀ q ∈ p.user_defined_publisher_list.filter
          (fun y => y.instance_handle != h), q.instance_handle ≠ h) := by
  refine ⟨?_, ?_, ?_⟩
  · intro habs
    have hfind : p.user_defined_publisher_list.find?
        (fun x => x.instance_handle == h) = none := by
      apply List.find?_eq_none.mpr
      intro x hx
      simpa using habs x hx
    unfold delete_publisher
    rw [hfind]
  · intro pub hfind hne
    have hlen : pub.data_writer_list.length > 0 := List.length_pos.mpr hne
    unfold delete_publisher
    rw [hfind]
    simp [hlen]
  · intro pub hfind hempty
    constructor
    · unfold delete_publisher
      rw [hfind]
      simp [hempty]
    · intro q hq
      simpa using (List.mem_filter.mp hq).2

theorem delete_publisher_preconditions_witness :
    delete_publisher sampleParticipantWithWriter 2 =
      Except.error (DdsError.PreconditionNotMet
        ("Publisher can only be deleted from its parent participant")) ∧
    delete_publisher sampleParticipantWithWriter 1 =
      Except.error (DdsError.PreconditionNotMet
        ("Publisher still contains data writers")) ∧
    delete_publisher sampleParticipantEmpty 1 =
      Except.ok { user_defined_publisher_list := [] } :=
  ⟨(delete_publisher_preconditions sampleParticipantWithWriter 2).1 (by decide),
   (delete_publisher_preconditions sampleParticipantWithWriter 1).2.1
     samplePublisherWithWriter (by decide) (by decide),
   by
     have hres := (delete_publisher_preconditions sampleParticipantEmpty 1).2.2
       samplePublisherEmpty (by decide) rfl
     rw [hres.1]
     rfl⟩

end Dcps

end DustDds

